import Mathlib

/-!
Verification of the heartbeat liveness detector in `src/pulse.rs`
(`HbFsm` and its operations `new`, `init`, `step`, plus the private
helpers `age_u64` and `age_valid`).

Times are `u64` tick counts in the source; we model them as `Nat` with
explicit wrapping modulo `2 ^ 64` where the source uses `wrapping_sub`.
The sequential semantics of `step` is modelled as a pure function on the
record, with the `AtomicBool` guard `in_step` as a plain `Bool` field:
`swap(true)` reads the old value and writes `true`, and the stores at the
exits write `false`, exactly as in the source.
-/

/-- The externally visible liveness verdict (`enum State` in pulse.rs). -/
inductive State where
  | Unknown : State
  | Alive : State
  | Dead : State
deriving DecidableEq, Repr

/-- Heartbeat evidence flag (`enum Hb` in pulse.rs). -/
inductive Hb where
  | NotSeen : Hb
  | Seen : Hb
deriving DecidableEq, Repr

/-- `Hb::from_bool` in pulse.rs. -/
def Hb.from_bool (b : Bool) : Hb :=
  match b with
  | true => Hb.Seen
  | false => Hb.NotSeen

/-- The modulus of `u64` arithmetic. -/
def u64Mod : Nat := 2 ^ 64

/-- `HbFsm::age_u64`: `now.wrapping_sub(then)` on `u64`.
For `t0 < 2 ^ 64` this is exactly the wrapping subtraction. -/
def age_u64 (now t0 : Nat) : Nat := (now + u64Mod - t0) % u64Mod

/-- `HbFsm::age_valid`: `age < (1u64 << 63)`. -/
def age_valid (age : Nat) : Bool := age < 2 ^ 63

/-- The detector state (`struct HbFsm` in pulse.rs). -/
structure HbFsm where
  state : State
  t_init : Nat
  last_hb : Nat
  have_hb : Bool
  fault_time : Bool
  fault_reentry : Bool
  in_step : Bool
deriving DecidableEq, Repr

/-- `HbFsm::new(now)`. -/
def HbFsm.new (now : Nat) : HbFsm :=
  { state := State.Unknown
    t_init := now
    last_hb := 0
    have_hb := false
    fault_time := false
    fault_reentry := false
    in_step := false }

/-- `HbFsm::init(&mut self, now)`: resets every field, including the
`in_step` guard, to the construction-time defaults. -/
def HbFsm.init (_m : HbFsm) (now : Nat) : HbFsm :=
  { state := State.Unknown
    t_init := now
    last_hb := 0
    have_hb := false
    fault_time := false
    fault_reentry := false
    in_step := false }

/-- `HbFsm::faulted`: `fault_time || fault_reentry`. -/
def HbFsm.faulted (m : HbFsm) : Bool := m.fault_time || m.fault_reentry

/-- `HbFsm::step(&mut self, now, hb, T, W)`, sequential semantics.
The argument `W` is accepted and never read, as in the source. -/
def HbFsm.step (m : HbFsm) (now : Nat) (hb : Hb) (T : Nat) (W : Nat) : HbFsm :=
  if m.faulted = true then
    m
  else if m.in_step = true then
    { m with fault_reentry := true, state := State.Dead }
  else
    let m1 : HbFsm :=
      if hb = Hb.Seen then
        { m with in_step := true, last_hb := now, have_hb := true }
      else
        { m with in_step := true }
    if m1.have_hb = false then
      if age_valid (age_u64 now m1.t_init) = false then
        { m1 with fault_time := true, state := State.Dead, in_step := false }
      else
        { m1 with state := State.Unknown, in_step := false }
    else if age_valid (age_u64 now m1.last_hb) = false then
      { m1 with fault_time := true, state := State.Dead, in_step := false }
    else if T < age_u64 now m1.last_hb then
      { m1 with state := State.Dead, in_step := false }
    else
      { m1 with state := State.Alive, in_step := false }

/-- Run a sequence of `step` calls with fixed `T` and `W`; each list
element is the `(now, hb)` pair of one call. -/
def runSteps (T W : Nat) (m : HbFsm) : List (Nat × Hb) → HbFsm
  | [] => m
  | c :: rest => runSteps T W (m.step c.1 c.2 T W) rest

/-- Detector values reachable through the public API: construction,
reset and completed sequential `step` calls. -/
inductive Reachable : HbFsm → Prop where
  | new (now : Nat) : Reachable (HbFsm.new now)
  | init (m : HbFsm) (now : Nat) : Reachable m → Reachable (HbFsm.init m now)
  | step (m : HbFsm) (now : Nat) (hb : Hb) (T W : Nat) :
      Reachable m → Reachable (m.step now hb T W)

/-- A heartbeat recorded at `now` has wrapped age zero at `now`. -/
theorem age_u64_self (now : Nat) : age_u64 now now = 0 := by
  simp only [age_u64, u64Mod]
  omega

/-- When the reference time is at most `now` and the gap is below the
wrap threshold, the wrapped age is the plain difference. -/
theorem age_u64_of_le (now s : Nat) (h : s ≤ now) (hlt : now - s < 2 ^ 64) :
    age_u64 now s = now - s := by
  simp only [age_u64, u64Mod]
  omega

/-- A non-faulted detector has both fault flags clear. -/
theorem faulted_false_iff (m : HbFsm) :
    m.faulted = false ↔ m.fault_time = false ∧ m.fault_reentry = false := by
  simp [HbFsm.faulted]

/-- C9: for every detector value and every `now`, `init(now)` produces
exactly the record `new(now)`: state `Unknown`, `init_time = now`,
`last_heartbeat_time = 0`, and `has_evidence`, `fault_time`,
`fault_reentry`, `in_transition` all false. -/
theorem init_eq_new (m : HbFsm) (now : Nat) :
    m.init now = HbFsm.new now ∧
    (m.init now).state = State.Unknown ∧
    (m.init now).t_init = now ∧
    (m.init now).last_hb = 0 ∧
    (m.init now).have_hb = false ∧
    (m.init now).fault_time = false ∧
    (m.init now).fault_reentry = false ∧
    (m.init now).in_step = false := by
  refine ⟨rfl, rfl, rfl, rfl, rfl, rfl, rfl, rfl⟩

/-- C10: two `step` calls that differ only in the `wait_bound` argument
produce identical resulting detector states, for every detector and
every other argument. -/
theorem step_ignores_wait_bound (m : HbFsm) (now : Nat) (hb : Hb)
    (T W W' : Nat) :
    m.step now hb T W = m.step now hb T W' := rfl

/-- C6: a `step` call on an already-faulted detector returns the
detector record completely unchanged, for every choice of arguments. -/
theorem step_faulted_frame (m : HbFsm) (now : Nat) (hb : Hb) (T W : Nat)
    (h : m.faulted = true) :
    m.step now hb T W = m := by
  simp [HbFsm.step, h]

/-- Witness for C6 at a concrete faulted detector. -/
theorem step_faulted_frame_witness :
    (HbFsm.faulted
        { state := State.Dead, t_init := 3, last_hb := 9, have_hb := true
          fault_time := true, fault_reentry := false, in_step := false } = true) ∧
      HbFsm.step
        { state := State.Dead, t_init := 3, last_hb := 9, have_hb := true
          fault_time := true, fault_reentry := false, in_step := false }
        5 Hb.Seen 1000 7 =
        { state := State.Dead, t_init := 3, last_hb := 9, have_hb := true
          fault_time := true, fault_reentry := false, in_step := false } :=
  ⟨by decide, step_faulted_frame _ 5 Hb.Seen 1000 7 (by decide)⟩

/-- C1: on a non-faulted detector with heartbeat evidence, outside any
transition, a `NotSeen` step whose wrapped age is valid sets the state
to `Dead` exactly when the age exceeds the timeout, and to `Alive`
otherwise (age equal to the timeout included). -/
theorem step_notseen_verdict (m : HbFsm) (now T W : Nat)
    (hf : m.faulted = false) (hi : m.in_step = false) (he : m.have_hb = true)
    (hv : age_valid (age_u64 now m.last_hb) = true) :
    ((m.step now Hb.NotSeen T W).state = State.Dead ↔
        T < age_u64 now m.last_hb) ∧
    ((m.step now Hb.NotSeen T W).state = State.Alive ↔
        age_u64 now m.last_hb ≤ T) := by
  by_cases hTa : T < age_u64 now m.last_hb
  · simp [HbFsm.step, hf, hi, he, hv, hTa]
  · simp [HbFsm.step, hf, hi, he, hv, hTa]
    omega

/-- Witness for C1 at a concrete detector, at ages `T + 1` and `T`. -/
theorem step_notseen_verdict_witness :
    ((HbFsm.step
        { state := State.Alive, t_init := 0, last_hb := 0, have_hb := true
          fault_time := false, fault_reentry := false, in_step := false }
        1001 Hb.NotSeen 1000 0).state = State.Dead ↔
      1000 < age_u64 1001 0) ∧
    ((HbFsm.step
        { state := State.Alive, t_init := 0, last_hb := 0, have_hb := true
          fault_time := false, fault_reentry := false, in_step := false }
        1001 Hb.NotSeen 1000 0).state = State.Alive ↔
      age_u64 1001 0 ≤ 1000) :=
  step_notseen_verdict _ 1001 1000 0 (by decide) (by decide) (by decide)
    (by decide)

/-- C5: on a non-faulted detector outside any transition, a `Seen` step
always ends `Alive` with evidence recorded at `now`, and never raises
the time fault, even when `now` is far below the previous
`last_heartbeat_time`: the evidence update overwrites `last_hb` before
the age computation, so the computed age is zero. -/
theorem step_seen_alive (m : HbFsm) (now T W : Nat)
    (hf : m.faulted = false) (hi : m.in_step = false) :
    (m.step now Hb.Seen T W).state = State.Alive ∧
    (m.step now Hb.Seen T W).have_hb = true ∧
    (m.step now Hb.Seen T W).last_hb = now ∧
    (m.step now Hb.Seen T W).fault_time = false := by
  obtain ⟨hft, hfr⟩ := (faulted_false_iff m).mp hf
  simp [HbFsm.step, hf, hi, age_u64_self, age_valid, hft]

/-- Witness for C5 with `now` far below the stored heartbeat time. -/
theorem step_seen_alive_witness :
    (HbFsm.step
        { state := State.Alive, t_init := 0, last_hb := 2 ^ 63 + 5
          have_hb := true, fault_time := false, fault_reentry := false
          in_step := false }
        3 Hb.Seen 1000 0).state = State.Alive ∧
    (HbFsm.step
        { state := State.Alive, t_init := 0, last_hb := 2 ^ 63 + 5
          have_hb := true, fault_time := false, fault_reentry := false
          in_step := false }
        3 Hb.Seen 1000 0).have_hb = true ∧
    (HbFsm.step
        { state := State.Alive, t_init := 0, last_hb := 2 ^ 63 + 5
          have_hb := true, fault_time := false, fault_reentry := false
          in_step := false }
        3 Hb.Seen 1000 0).last_hb = 3 ∧
    (HbFsm.step
        { state := State.Alive, t_init := 0, last_hb := 2 ^ 63 + 5
          have_hb := true, fault_time := false, fault_reentry := false
          in_step := false }
        3 Hb.Seen 1000 0).fault_time = false :=
  step_seen_alive _ 3 1000 0 (by decide) (by decide)

/-- C2: any completed `step` call that ends with `state = Alive` leaves
the wrapped difference between the `now` of that call and the resulting
`last_heartbeat_time` at most the timeout; the hypothesis is invariant
I2 (a faulted detector is `Dead`), which holds at every observable
point. -/
theorem alive_age_le_timeout (m : HbFsm) (now : Nat) (hb : Hb) (T W : Nat)
    (hI2 : m.faulted = true → m.state = State.Dead)
    (hAlive : (m.step now hb T W).state = State.Alive) :
    age_u64 now ((m.step now hb T W).last_hb) ≤ T := by
  by_cases hf : m.faulted = true
  · rw [show m.step now hb T W = m by simp [HbFsm.step, hf]] at hAlive
    rw [hI2 hf] at hAlive
    exact absurd hAlive (by decide)
  · have hf' : m.faulted = false := by simpa using hf
    by_cases hi : m.in_step = true
    · simp [HbFsm.step, hf', hi] at hAlive
    · have hi' : m.in_step = false := by simpa using hi
      cases hb with
      | Seen =>
        simp [HbFsm.step, hf', hi', age_u64_self, age_valid]
      | NotSeen =>
        by_cases he : m.have_hb = true
        · by_cases hv : age_valid (age_u64 now m.last_hb) = true
          · by_cases hTa : T < age_u64 now m.last_hb
            · simp [HbFsm.step, hf', hi', he, hv, hTa] at hAlive
            · simp [HbFsm.step, hf', hi', he, hv, hTa]
              omega
          · have hv' : age_valid (age_u64 now m.last_hb) = false := by
              simpa using hv
            simp [HbFsm.step, hf', hi', he, hv'] at hAlive
        · have he' : m.have_hb = false := by simpa using he
          by_cases hv : age_valid (age_u64 now m.t_init) = false
          · simp [HbFsm.step, hf', hi', he', hv] at hAlive
          · have hv' : age_valid (age_u64 now m.t_init) = true := by
              simpa using hv
            simp [HbFsm.step, hf', hi', he', hv'] at hAlive

/-- Witness for C2: a `Seen` call on a fresh detector ends `Alive` with
wrapped age zero, at most the timeout. -/
theorem alive_age_le_timeout_witness :
    ((HbFsm.new 0).step 0 Hb.Seen 1000 0).state = State.Alive ∧
    age_u64 0 (((HbFsm.new 0).step 0 Hb.Seen 1000 0).last_hb) ≤ 1000 :=
  ⟨by decide, alive_age_le_timeout (HbFsm.new 0) 0 Hb.Seen 1000 0
    (by decide) (by decide)⟩

/-- One sequential `step` call preserves the observable-point
invariants: the guard is clear, a faulted detector is `Dead` (I2), and
`Alive` implies evidence (I1). -/
theorem step_preserves_inv (m : HbFsm) (now : Nat) (hb : Hb) (T W : Nat)
    (h1 : m.in_step = false)
    (h2 : m.faulted = true → m.state = State.Dead)
    (h3 : m.state = State.Alive → m.have_hb = true) :
    (m.step now hb T W).in_step = false ∧
    ((m.step now hb T W).faulted = true →
      (m.step now hb T W).state = State.Dead) ∧
    ((m.step now hb T W).state = State.Alive →
      (m.step now hb T W).have_hb = true) := by
  by_cases hf : m.faulted = true
  · rw [show m.step now hb T W = m by simp [HbFsm.step, hf]]
    exact ⟨h1, h2, h3⟩
  · have hf' : m.faulted = false := by simpa using hf
    obtain ⟨hft, hfr⟩ := (faulted_false_iff m).mp hf'
    cases hb with
    | Seen =>
      simp [HbFsm.step, hf', h1, age_u64_self, age_valid, HbFsm.faulted,
        hft, hfr]
    | NotSeen =>
      by_cases he : m.have_hb = true
      · by_cases hv : age_valid (age_u64 now m.last_hb) = true
        · by_cases hTa : T < age_u64 now m.last_hb
          · simp [HbFsm.step, hf', h1, he, hv, hTa, HbFsm.faulted, hft, hfr]
          · simp [HbFsm.step, hf', h1, he, hv, hTa, HbFsm.faulted, hft, hfr]
        · have hv' : age_valid (age_u64 now m.last_hb) = false := by
            simpa using hv
          simp [HbFsm.step, hf', h1, he, hv', HbFsm.faulted, hft, hfr]
      · have he' : m.have_hb = false := by simpa using he
        by_cases hv : age_valid (age_u64 now m.t_init) = false
        · simp [HbFsm.step, hf', h1, he', hv, HbFsm.faulted, hft, hfr]
        · have hv' : age_valid (age_u64 now m.t_init) = true := by
            simpa using hv
          simp [HbFsm.step, hf', h1, he', hv', HbFsm.faulted, hft, hfr]

/-- Every reachable detector satisfies the observable-point invariants:
guard clear, I2 (faulted implies `Dead`) and I1 (`Alive` implies
evidence). -/
theorem reachable_inv (m : HbFsm) (h : Reachable m) :
    m.in_step = false ∧
    (m.faulted = true → m.state = State.Dead) ∧
    (m.state = State.Alive → m.have_hb = true) := by
  induction h with
  | new now =>
    exact ⟨rfl, by simp [HbFsm.new, HbFsm.faulted], by simp [HbFsm.new]⟩
  | init m now _ _ =>
    exact ⟨rfl, by simp [HbFsm.init, HbFsm.faulted], by simp [HbFsm.init]⟩
  | step m now hb T W _ ih =>
    exact step_preserves_inv m now hb T W ih.1 ih.2.1 ih.2.2

/-- C8: at every externally observable point — after `new`, after
`init`, and after every completed `step` call — `state = Alive` implies
`has_evidence = true` (invariant I1). -/
theorem alive_implies_evidence (m : HbFsm) (h : Reachable m)
    (ha : m.state = State.Alive) : m.have_hb = true :=
  (reachable_inv m h).2.2 ha

/-- Witness for C8 at a concrete reachable `Alive` detector. -/
theorem alive_implies_evidence_witness :
    ((HbFsm.new 0).step 0 Hb.Seen 5 0).state = State.Alive ∧
    ((HbFsm.new 0).step 0 Hb.Seen 5 0).have_hb = true :=
  ⟨by decide, alive_implies_evidence _
    (Reachable.step _ 0 Hb.Seen 5 0 (Reachable.new 0)) (by decide)⟩

/-- C3: on a reachable detector with heartbeat evidence, a `NotSeen`
step whose wrapped age `now - last_hb` is at least `2 ^ 63` (the only
way the age computation uses the previous `last_heartbeat_time`) ends
with `state = Dead` and `faulted() = true`. -/
theorem clock_corruption_fault (m : HbFsm) (now T W : Nat)
    (h : Reachable m) (he : m.have_hb = true)
    (hage : 2 ^ 63 ≤ age_u64 now m.last_hb) :
    (m.step now Hb.NotSeen T W).state = State.Dead ∧
    (m.step now Hb.NotSeen T W).faulted = true := by
  obtain ⟨hi, h2, _⟩ := reachable_inv m h
  by_cases hf : m.faulted = true
  · rw [show m.step now Hb.NotSeen T W = m by simp [HbFsm.step, hf]]
    exact ⟨h2 hf, hf⟩
  · have hf' : m.faulted = false := by simpa using hf
    obtain ⟨hft, hfr⟩ := (faulted_false_iff m).mp hf'
    have hv : age_valid (age_u64 now m.last_hb) = false := by
      simp [age_valid]
      omega
    simp [HbFsm.step, hf', hi, he, hv, HbFsm.faulted, hft, hfr]

/-- Witness for C3: heartbeat at 1000, then `NotSeen` at 500; the
wrapped age is `2 ^ 64 - 500 ≥ 2 ^ 63`. -/
theorem clock_corruption_fault_witness :
    (((HbFsm.new 1000).step 1000 Hb.Seen 1000 0).step
        500 Hb.NotSeen 1000 0).state = State.Dead ∧
    (((HbFsm.new 1000).step 1000 Hb.Seen 1000 0).step
        500 Hb.NotSeen 1000 0).faulted = true :=
  clock_corruption_fault _ 500 1000 0
    (Reachable.step _ 1000 Hb.Seen 1000 0 (Reachable.new 1000))
    (by decide) (by decide)

/-- C4: on a reachable detector whose `fault_time` or `fault_reentry`
is set, every `step` call leaves both flags exactly as they were and
leaves `state = Dead`; an explicit `init` is what clears the flags and
moves the state back to `Unknown`. -/
theorem fault_latch (m : HbFsm) (now : Nat) (hb : Hb) (T W : Nat)
    (h : Reachable m)
    (hf : m.fault_time = true ∨ m.fault_reentry = true) :
    (m.step now hb T W).fault_time = m.fault_time ∧
    (m.step now hb T W).fault_reentry = m.fault_reentry ∧
    (m.step now hb T W).state = State.Dead ∧
    (HbFsm.init m now).fault_time = false ∧
    (HbFsm.init m now).fault_reentry = false ∧
    (HbFsm.init m now).state = State.Unknown := by
  have hfl : m.faulted = true := by
    rcases hf with hf | hf <;> simp [HbFsm.faulted, hf]
  have hd := (reachable_inv m h).2.1 hfl
  rw [show m.step now hb T W = m by simp [HbFsm.step, hfl]]
  exact ⟨rfl, rfl, hd, rfl, rfl, rfl⟩

/-- Witness for C4: a detector time-faulted by a backward clock jump
stays faulted and `Dead` through a later `Seen` call. -/
theorem fault_latch_witness :
    ((HbFsm.new 1000).step 500 Hb.NotSeen 10 0).fault_time = true ∧
    (((HbFsm.new 1000).step 500 Hb.NotSeen 10 0).step
        2000 Hb.Seen 10 0).state = State.Dead :=
  ⟨by decide,
    (fault_latch _ 2000 Hb.Seen 10 0
      (Reachable.step _ 500 Hb.NotSeen 10 0 (Reachable.new 1000))
      (Or.inl (by decide))).2.2.1⟩

/-- A call trace is good for timeout `T`, last-seen time `s` and
previous clock reading `p` when clock readings are nondecreasing and at
every call at most `T` ticks have passed since the last `Seen` signal
(`s` starts at the construction time, so the first `Seen` must arrive
within `T` ticks of construction). -/
def goodTrace (T : Nat) : Nat → Nat → List (Nat × Hb) → Bool
  | _, _, [] => true
  | s, p, c :: rest =>
      (decide (p ≤ c.1) && decide (c.1 - s ≤ T)) &&
        goodTrace T (if c.2 = Hb.Seen then c.1 else s) c.1 rest

/-- Run-time invariant for the stability argument, relative to the
last-seen time `s` and the previous clock reading `p`. -/
def StabInv (s p : Nat) (m : HbFsm) : Prop :=
  m.fault_time = false ∧ m.fault_reentry = false ∧ m.in_step = false ∧
  m.state ≠ State.Dead ∧ s ≤ p ∧
  (m.have_hb = true → m.last_hb = s) ∧ (m.have_hb = false → m.t_init = s)

/-- One good call preserves the stability invariant when the timeout is
below the age-validity threshold. -/
theorem stabInv_step (s p : Nat) (m : HbFsm) (now : Nat) (hb : Hb)
    (T W : Nat) (hT : T < 2 ^ 63) (hinv : StabInv s p m) (hp : p ≤ now)
    (hgap : now - s ≤ T) :
    StabInv (if hb = Hb.Seen then now else s) now (m.step now hb T W) := by
  obtain ⟨hft, hfr, hi, hst, hsp, hlast, hinit⟩ := hinv
  have hf : m.faulted = false := by simp [HbFsm.faulted, hft, hfr]
  have hsn : s ≤ now := le_trans hsp hp
  have hage : age_u64 now s = now - s := age_u64_of_le now s hsn (by omega)
  have hvalid : age_valid (now - s) = true := by
    simp [age_valid]
    omega
  cases hb with
  | Seen =>
    simp [HbFsm.step, hf, hi, age_u64_self, age_valid, StabInv, hft, hfr]
  | NotSeen =>
    by_cases he : m.have_hb = true
    · have hl : m.last_hb = s := hlast he
      have hTa : ¬ T < now - s := by omega
      simp [HbFsm.step, hf, hi, he, hl, hage, hvalid, hTa, StabInv, hft,
        hfr, hsn]
    · have he' : m.have_hb = false := by simpa using he
      have ht0 : m.t_init = s := hinit he'
      simp [HbFsm.step, hf, hi, he', ht0, hage, hvalid, StabInv, hft, hfr,
        hsn]

/-- Running a good trace from a detector satisfying the stability
invariant never ends `Dead`, when the timeout is below `2 ^ 63`. -/
theorem runSteps_good_not_dead (T W : Nat) (hT : T < 2 ^ 63)
    (l : List (Nat × Hb)) :
    ∀ (s p : Nat) (m : HbFsm), StabInv s p m → goodTrace T s p l = true →
      (runSteps T W m l).state ≠ State.Dead := by
  induction l with
  | nil =>
    intro s p m hinv _
    exact hinv.2.2.2.1
  | cons c rest ih =>
    intro s p m hinv hg
    simp only [goodTrace, Bool.and_eq_true, decide_eq_true_eq] at hg
    obtain ⟨⟨hp, hgap⟩, hrest⟩ := hg
    exact ih _ _ _ (stabInv_step s p m c.1 c.2 T W hT hinv hp hgap) hrest

/-- A good trace stays good when a suffix of calls is dropped. -/
theorem goodTrace_append (T : Nat) (l₁ l₂ : List (Nat × Hb)) :
    ∀ s p, goodTrace T s p (l₁ ++ l₂) = true → goodTrace T s p l₁ = true := by
  induction l₁ with
  | nil =>
    intro s p _
    rfl
  | cons c rest ih =>
    intro s p h
    simp only [List.cons_append, goodTrace, Bool.and_eq_true] at h ⊢
    exact ⟨h.1, ih _ _ h.2⟩

/-- C7 (amended): starting from `new(now0)` or `init(now0)`, if the
clock readings are nondecreasing, a `Seen` signal arrives at least once
every `timeout` ticks, and `timeout < 2 ^ 63`, then the state is never
`Dead` after any call of the sequence. -/
theorem stability_small_timeout (now0 T W : Nat) (m0 : HbFsm)
    (l₁ l₂ : List (Nat × Hb)) (hT : T < 2 ^ 63)
    (hg : goodTrace T now0 now0 (l₁ ++ l₂) = true) :
    (runSteps T W (HbFsm.new now0) l₁).state ≠ State.Dead ∧
    (runSteps T W (HbFsm.init m0 now0) l₁).state ≠ State.Dead := by
  have hg1 := goodTrace_append T l₁ l₂ now0 now0 hg
  have hinv : StabInv now0 now0 (HbFsm.new now0) := by
    simp [StabInv, HbFsm.new]
  have h1 := runSteps_good_not_dead T W hT l₁ now0 now0 (HbFsm.new now0)
    hinv hg1
  exact ⟨h1, h1⟩

/-- Witness for the amended C7 on a concrete good trace. -/
theorem stability_small_timeout_witness :
    (runSteps 5 0 (HbFsm.new 0)
        [(0, Hb.Seen), (4, Hb.NotSeen)]).state ≠ State.Dead :=
  (stability_small_timeout 0 5 0 (HbFsm.new 99)
    [(0, Hb.Seen), (4, Hb.NotSeen)] [] (by decide) (by decide)).1

/-- Counterexample to C7 as stated: with `timeout = 2 ^ 63`, heartbeats
at times 0 and `2 ^ 63` arrive exactly once every `timeout` ticks with
nondecreasing clock readings, yet the `NotSeen` call at `2 ^ 63` sees
wrapped age `2 ^ 63`, fails the age-validity check, and latches the
detector `Dead`. -/
theorem stability_counterexample :
    goodTrace (2 ^ 63) 0 0
        [(0, Hb.Seen), (2 ^ 63, Hb.NotSeen), (2 ^ 63, Hb.Seen)] = true ∧
    (runSteps (2 ^ 63) 0 (HbFsm.new 0)
        [(0, Hb.Seen), (2 ^ 63, Hb.NotSeen), (2 ^ 63, Hb.Seen)]).state =
      State.Dead := by
  constructor
  · decide
  · decide
